import Mathlib

/-!
Shallow embedding of `src/src/kernel/pwm-cadence.c`, the PWM driver for the
Cadence Triple Timer Counter.  Register state is a map from
(channel, register kind) to a 32-bit value; `cadence_pwm_config` and
`cadence_pwm_disable` are embedded as explicit state transformers, with the
success/failure of `clk_prepare_enable` as an explicit boolean input.
Machine integers are modelled as `Nat`/`Int` with explicit wrap-around
(`% 2^32`, `% 2^64`) where the C code narrows or reinterprets.
-/

namespace CadencePWM

/-! ### Register kinds (enum cpwm_register) -/

def CPWM_CLK_CTRL : Nat := 0
def CPWM_COUNTER_CTRL : Nat := 1
def CPWM_COUNTER_VALUE : Nat := 2
def CPWM_INTERVAL_COUNTER : Nat := 3
def CPWM_MATCH_1_COUNTER : Nat := 4
def CPWM_MATCH_2_COUNTER : Nat := 5
def CPWM_MATCH_3_COUNTER : Nat := 6
def CPWM_INTERRUPT_REGISTER : Nat := 7
def CPWM_INTERRUPT_ENABLE : Nat := 8
def CPWM_EVENT_CONTROL_TIMER : Nat := 9
def CPWM_EVENT_REGISTER : Nat := 10

/-! ### Bit masks -/

def CPWM_CLK_FALLING_EDGE : Nat := 0x40
def CPWM_CLK_SRC_EXTERNAL : Nat := 0x20
def CPWM_CLK_PRESCALE_SHIFT : Nat := 1
def CPWM_CLK_PRESCALE_MASK : Nat := 15 <<< 1
def CPWM_CLK_PRESCALE_ENABLE : Nat := 1

def CPWM_COUNTER_CTRL_WAVE_POL : Nat := 0x40
def CPWM_COUNTER_CTRL_WAVE_DISABLE : Nat := 0x20
def CPWM_COUNTER_CTRL_RESET : Nat := 0x10
def CPWM_COUNTER_CTRL_MATCH_ENABLE : Nat := 0x8
def CPWM_COUNTER_CTRL_DECREMENT_ENABLE : Nat := 0x4
def CPWM_COUNTER_CTRL_INTERVAL_ENABLE : Nat := 0x2
def CPWM_COUNTER_CTRL_COUNTING_DISABLE : Nat := 0x1

def CPWM_NUM_PWM : Nat := 3

/-- Bitwise complement of a 32-bit value (`~m` applied to a `uint32_t`). -/
def complement32 (m : Nat) : Nat := 0xFFFFFFFF ^^^ m

/-! ### Machine-integer reinterpretations -/

/-- Reinterpret a natural number as a 32-bit two's-complement signed value
(C assignment of an unsigned computation result to an `int`). -/
def toInt32 (n : Nat) : Int :=
  let m : Nat := n % 2 ^ 32
  if (m : Int) < 2 ^ 31 then (m : Int) else (m : Int) - 2 ^ 32

/-- Wrap an integer into the 64-bit two's-complement range
(the value an `int64_t` multiplication produces, modelling wrap-around). -/
def toInt64 (x : Int) : Int :=
  let m : Int := x % (2 : Int) ^ 64
  if m < 2 ^ 63 then m else m - 2 ^ 64

/-- Reinterpret an `int64_t` value as a `u64` (the implicit conversion at the
call of `div64_u64`). -/
def toUInt64n (x : Int) : Nat := (x % (2 : Int) ^ 64).toNat

/-- Arithmetic right shift of a signed value (`>>` on an `int`, which GCC
defines as arithmetic shift, i.e. floor division by a power of two). -/
def asr (x : Int) (k : Nat) : Int := Int.fdiv x (2 ^ k)

/-- Low 16 bits of a signed value (`& 0xffff` on an `int`, in two's
complement). -/
def mask16 (x : Int) : Nat := (x % 65536).toNat

/-- Find-last-set scan over the low `i` bits: the 1-based position of the
most significant set bit below `i`, or `0` if none. -/
def fls_aux (n : Nat) : Nat → Nat
  | 0 => 0
  | i + 1 => if n.testBit i then i + 1 else fls_aux n i

/-- Linux `fls` on a 32-bit operand: `fls(1) = 1`, `fls(0x80000000) = 32`,
`fls(0) = 0`. -/
def fls32 (n : Nat) : Nat := fls_aux n 32

/-- Linux `ilog2` on a 32-bit operand (`__ilog2_u32`): `fls(n) - 1`, i.e.
`floor(log2 n)` for `n > 0` and `-1` for `n = 0`.  The argument is the `u32`
bit pattern. -/
def ilog2_u32 (n : Nat) : Int := (fls32 n : Int) - 1

/-! ### Arithmetic of cadence_pwm_config -/

/-- Lines 159-161 / 186-188:
`div64_u64((int64_t)ns * (int64_t)rate, 1000000000LL)` assigned to an `int`.
The `int64_t` product is reinterpreted as `u64`, divided (unsigned), and the
`u64` quotient is narrowed to a 32-bit signed `int`. -/
def clocks_of (ns : Int) (rate : Nat) : Int :=
  toInt32 (toUInt64n (toInt64 (ns * (rate : Int))) / 1000000000)

/-- Lines 163-165: `prescaler = ilog2(period_clocks) + 1 - 16;` clamped below
at `0`.  `period_clocks` is an `int`; `ilog2` sees its `u32` bit pattern. -/
def prescaler_of (period_clocks : Int) : Int :=
  let p : Int := ilog2_u32 ((period_clocks % ((2 : Int) ^ 32)).toNat) + 1 - 16
  if p < 0 then 0 else p

/-! ### Register state -/

/-- Register file of the whole chip: channel index and register kind to
32-bit value. -/
def Regs : Type := Nat → Nat → Nat

/-- Model of `cpwm_write` / `iowrite32`: store a value, narrowed to 32 bits, at one
(channel, register) location. -/
def writeReg (r : Regs) (h reg v : Nat) : Regs :=
  fun h' reg' => if h' = h ∧ reg' = reg then v % 2 ^ 32 else r h' reg'

inductive Polarity where
  | normal
  | inversed
deriving DecidableEq

inductive CResult where
  | ok
  | invalidArgument
  | clockUnavailable
deriving DecidableEq

/-- Mutable driver state visible to the claims: the register file and the
per-channel clock prepare/enable count. -/
structure PwmState where
  regs : Regs
  clkCount : Nat → Nat

/-- Effect of a successful `clk_prepare_enable` on channel `h`. -/
def clkBump (h : Nat) (s : PwmState) : PwmState :=
  { s with clkCount := fun h' => if h' = h then s.clkCount h' + 1 else s.clkCount h' }

/-- Lines 154-206 of `cadence_pwm_config`: the register-write sequence on the
success path (counter quiesce, clock-control update, interval/match-threshold
writes, counter-control restore). -/
def configure_regs (useExt : Bool) (pol : Polarity) (rate h : Nat)
    (duty_ns period_ns : Int) (r : Regs) : Regs :=
  let counter_ctrl := r h CPWM_COUNTER_CTRL
  let r1 := writeReg r h CPWM_COUNTER_CTRL
    (counter_ctrl ||| CPWM_COUNTER_CTRL_COUNTING_DISABLE)
  let period_clocks := clocks_of period_ns rate
  let prescaler := prescaler_of period_clocks
  let x0 := r1 h CPWM_CLK_CTRL
  let x1 :=
    if prescaler = 0 then
      x0 &&& complement32 (CPWM_CLK_PRESCALE_ENABLE ||| CPWM_CLK_PRESCALE_MASK)
    else
      (x0 &&& complement32 CPWM_CLK_PRESCALE_MASK) |||
        (CPWM_CLK_PRESCALE_ENABLE |||
          (((prescaler - 1).toNat <<< CPWM_CLK_PRESCALE_SHIFT) &&&
            CPWM_CLK_PRESCALE_MASK))
  let x2 :=
    if useExt then x1 ||| CPWM_CLK_SRC_EXTERNAL
    else x1 &&& complement32 CPWM_CLK_SRC_EXTERNAL
  let r2 := writeReg r1 h CPWM_CLK_CTRL x2
  let duty_clocks := clocks_of duty_ns rate
  let r3 := writeReg r2 h CPWM_INTERVAL_COUNTER (mask16 (asr period_clocks prescaler.toNat))
  let r4 := writeReg r3 h CPWM_MATCH_1_COUNTER (mask16 (asr duty_clocks prescaler.toNat))
  let cc0 := counter_ctrl &&& complement32 CPWM_COUNTER_CTRL_DECREMENT_ENABLE
  let cc1 := cc0 ||| (CPWM_COUNTER_CTRL_INTERVAL_ENABLE |||
    CPWM_COUNTER_CTRL_RESET ||| CPWM_COUNTER_CTRL_MATCH_ENABLE)
  let cc2 :=
    if pol = Polarity.normal then cc1 ||| CPWM_COUNTER_CTRL_WAVE_POL
    else cc1 &&& complement32 CPWM_COUNTER_CTRL_WAVE_POL
  writeReg r4 h CPWM_COUNTER_CTRL cc2

/-- Model of `cadence_pwm_config` (lines 132-212).  `clkOk` is whether
`clk_prepare_enable` on the channel clock succeeds; `useExt`, `pol` and
`rate` are the channel's clock-source identity, polarity and clock rate. -/
def cadence_pwm_config (useExt : Bool) (pol : Polarity) (rate : Nat)
    (clkOk : Bool) (h : Nat) (duty_ns period_ns : Int) (s : PwmState) :
    CResult × PwmState :=
  if clkOk then
    let s1 := clkBump h s
    if period_ns < 0 then (CResult.invalidArgument, s1)
    else
      (CResult.ok,
        { s1 with regs := configure_regs useExt pol rate h duty_ns period_ns s1.regs })
  else (CResult.clockUnavailable, s)

/-- Model of `cadence_pwm_disable` (lines 214-228): set the counting-disabled and
waveform-disable bits of the counter-control register, then
`clk_disable_unprepare` the channel clock. -/
def cadence_pwm_disable (h : Nat) (s : PwmState) : PwmState :=
  let x := s.regs h CPWM_COUNTER_CTRL
  let r := writeReg s.regs h CPWM_COUNTER_CTRL
    (x ||| (CPWM_COUNTER_CTRL_COUNTING_DISABLE ||| CPWM_COUNTER_CTRL_WAVE_DISABLE))
  { regs := r
    clkCount := fun h' => if h' = h then s.clkCount h' - 1 else s.clkCount h' }

/-! ### fls32 and the prescaler formula -/

theorem fls_aux_spec (n : Nat) :
    ∀ i, n < 2 ^ i → fls_aux n i = if n = 0 then 0 else Nat.log2 n + 1 := by
  intro i
  induction i with
  | zero =>
    intro h
    have hn : n = 0 := by omega
    subst hn; rfl
  | succ i ih =>
    intro h
    by_cases hb : n.testBit i
    · have hge : 2 ^ i ≤ n := Nat.testBit_implies_ge hb
      have hp : 0 < 2 ^ i := Nat.pos_pow_of_pos i (by omega)
      have hn0 : n ≠ 0 := by omega
      have h1 : Nat.log2 n < i + 1 := (Nat.log2_lt hn0).mpr h
      have h2 : ¬ Nat.log2 n < i := fun hc => by
        have := (Nat.log2_lt hn0).mp hc
        omega
      simp only [fls_aux, hb, if_true, if_neg hn0]
      omega
    · have hp : 0 < 2 ^ i := Nat.pos_pow_of_pos i (by omega)
      have hmod : n / 2 ^ i % 2 ≠ 1 := by
        simpa [Nat.testBit_to_div_mod] using hb
      have hpow : 2 ^ (i + 1) = 2 ^ i * 2 := by ring
      have hd2 : n / 2 ^ i < 2 := Nat.div_lt_of_lt_mul (by omega)
      have hd0 : n / 2 ^ i = 0 := by
        interval_cases h1 : n / 2 ^ i
        · rfl
        · exact absurd rfl hmod
      have hlt : n < 2 ^ i := (Nat.div_eq_zero_iff hp).mp hd0
      simp only [fls_aux, hb, if_false]
      exact ih hlt

theorem fls32_spec (n : Nat) (h : n < 2 ^ 32) :
    fls32 n = if n = 0 then 0 else Nat.log2 n + 1 :=
  fls_aux_spec n 32 h

theorem prescaler_of_toNat_eq (p : Nat) (h0 : 0 < p) (h32 : p < 2 ^ 32) :
    (prescaler_of (p : Int)).toNat = Nat.log2 p - 15 := by
  have hmod : ((p : Int) % (2 : Int) ^ 32).toNat = p := by
    rw [Int.emod_eq_of_lt (by positivity) (by exact_mod_cast h32)]
    exact Int.toNat_natCast p
  have hfls : fls32 p = Nat.log2 p + 1 := by
    rw [fls32_spec p h32]
    exact if_neg (by omega)
  simp only [prescaler_of, ilog2_u32, hmod, hfls]
  split <;> omega

/-! ### C1: prescaler bound and minimality -/

/-- C1: for every `period_clocks > 0` (a positive 32-bit signed `int`), the
prescaler exponent `e` chosen by `cadence_pwm_config` (computed as
`ilog2(period_clocks) + 1 - 16`, clamped below at 0, i.e. `prescaler_of`)
satisfies `(period_clocks >> e) ≤ 65535`, and `e` is minimal among exponents
satisfying that bound: whenever `e > 0`, `(period_clocks >> (e-1)) > 65535`. -/
theorem c1_prescaler_bound_minimal (p : Nat) (h0 : 0 < p) (h31 : p < 2 ^ 31) :
    p >>> (prescaler_of (p : Int)).toNat ≤ 65535 ∧
    (0 < (prescaler_of (p : Int)).toNat →
      65535 < p >>> ((prescaler_of (p : Int)).toNat - 1)) := by
  have h32 : p < 2 ^ 32 := by omega
  have he : (prescaler_of (p : Int)).toNat = Nat.log2 p - 15 :=
    prescaler_of_toNat_eq p h0 h32
  have hub : p < 2 ^ (Nat.log2 p + 1) := Nat.lt_log2_self
  have hlb : 2 ^ Nat.log2 p ≤ p := Nat.log2_self_le (by omega)
  rw [he]
  set k := Nat.log2 p with hk
  constructor
  · rw [Nat.shiftRight_eq_div_pow]
    have hklt : p < 2 ^ (k - 15) * 2 ^ 16 := by
      calc p < 2 ^ (k + 1) := hub
        _ ≤ 2 ^ (k - 15 + 16) := Nat.pow_le_pow_right (by omega) (by omega)
        _ = 2 ^ (k - 15) * 2 ^ 16 := by rw [← pow_add]
    have hdiv : p / 2 ^ (k - 15) < 2 ^ 16 := Nat.div_lt_of_lt_mul hklt
    have h216 : (2 : Nat) ^ 16 = 65536 := by norm_num
    omega
  · intro hpos
    rw [Nat.shiftRight_eq_div_pow]
    have hk16 : 16 ≤ k := by omega
    have hmul : 65536 * 2 ^ (k - 16) ≤ p := by
      calc 65536 * 2 ^ (k - 16) = 2 ^ 16 * 2 ^ (k - 16) := by norm_num
        _ = 2 ^ k := by rw [← pow_add]; congr 1; omega
        _ ≤ p := hlb
    have hpos2 : 0 < 2 ^ (k - 16) := Nat.pos_pow_of_pos _ (by omega)
    have h2 : 65536 ≤ p / 2 ^ (k - 15 - 1) := by
      rw [show k - 15 - 1 = k - 16 by omega]
      exact (Nat.le_div_iff_mul_le hpos2).mpr hmul
    omega

/-- Witness for C1 at `period_clocks = 1000000`. -/
theorem c1_prescaler_bound_minimal_witness :
    (1000000 : Nat) >>> (prescaler_of (1000000 : Int)).toNat ≤ 65535 ∧
    (0 < (prescaler_of (1000000 : Int)).toNat →
      65535 < (1000000 : Nat) >>> ((prescaler_of (1000000 : Int)).toNat - 1)) :=
  c1_prescaler_bound_minimal 1000000 (by decide) (by decide)

/-! ### C2: 64-bit tick computation -/

theorem clocks_of_exact (ns : Int) (rate : Nat) (h0 : 0 ≤ ns)
    (h31 : ns < 2 ^ 31) (hr32 : rate < 2 ^ 32) :
    ns * (rate : Int) < 2 ^ 63 ∧
    toInt64 (ns * (rate : Int)) = ns * (rate : Int) ∧
    toUInt64n (toInt64 (ns * (rate : Int))) / 1000000000 =
      ns.toNat * rate / 1000000000 ∧
    clocks_of ns rate = toInt32 (ns.toNat * rate / 1000000000) := by
  have hrate : (rate : Int) < 2 ^ 32 := by exact_mod_cast hr32
  have hrate0 : (0 : Int) ≤ (rate : Int) := by positivity
  have hprod0 : 0 ≤ ns * (rate : Int) := mul_nonneg h0 hrate0
  have hlt : ns * (rate : Int) < 2 ^ 63 := by
    calc ns * (rate : Int) ≤ (2 ^ 31 - 1) * (rate : Int) := by
          exact mul_le_mul_of_nonneg_right (by omega) hrate0
      _ ≤ (2 ^ 31 - 1) * (2 ^ 32 - 1) := by
          exact mul_le_mul_of_nonneg_left (by omega) (by norm_num)
      _ < 2 ^ 63 := by norm_num
  have h64 : toInt64 (ns * (rate : Int)) = ns * (rate : Int) := by
    unfold toInt64
    rw [Int.emod_eq_of_lt hprod0 (by omega)]
    exact if_pos hlt
  have htonat : (ns * (rate : Int)).toNat = ns.toNat * rate := by
    obtain ⟨m, rfl⟩ := Int.eq_ofNat_of_zero_le h0
    simp only [← Nat.cast_mul, Int.toNat_natCast]
  have hu : toUInt64n (toInt64 (ns * (rate : Int))) / 1000000000 =
      ns.toNat * rate / 1000000000 := by
    unfold toUInt64n
    rw [h64, Int.emod_eq_of_lt hprod0 (by omega), htonat]
  refine ⟨hlt, h64, hu, ?_⟩
  unfold clocks_of
  rw [hu]

/-- C2: for every non-negative `period_ns` (a 32-bit `int`) and every positive
clock rate below `2^32`, the driver computes
`period_clocks = floor(period_ns * clock_rate_hz / 1_000_000_000)` with the
64-bit intermediate product free of overflow (it stays below `2^63`), and the
result is narrowed to a 32-bit signed `int`.  `duty_clocks` in Step 5 is
computed by the same function `clocks_of`. -/
theorem c2_clocks_64bit_exact (ns : Int) (rate : Nat) (h0 : 0 ≤ ns)
    (h31 : ns < 2 ^ 31) (hr : 0 < rate) (hr32 : rate < 2 ^ 32) :
    ns * (rate : Int) < 2 ^ 63 ∧
    toInt64 (ns * (rate : Int)) = ns * (rate : Int) ∧
    toUInt64n (toInt64 (ns * (rate : Int))) / 1000000000 =
      ns.toNat * rate / 1000000000 ∧
    clocks_of ns rate = toInt32 (ns.toNat * rate / 1000000000) :=
  clocks_of_exact ns rate h0 h31 hr32

/-- Witness for C2 at `ns = 20000000`, `rate = 50000000`. -/
theorem c2_clocks_64bit_exact_witness :
    (20000000 : Int) * ((50000000 : Nat) : Int) < 2 ^ 63 ∧
    toInt64 ((20000000 : Int) * ((50000000 : Nat) : Int)) =
      (20000000 : Int) * ((50000000 : Nat) : Int) ∧
    toUInt64n (toInt64 ((20000000 : Int) * ((50000000 : Nat) : Int))) / 1000000000 =
      (20000000 : Int).toNat * 50000000 / 1000000000 ∧
    clocks_of 20000000 50000000 =
      toInt32 ((20000000 : Int).toNat * 50000000 / 1000000000) :=
  c2_clocks_64bit_exact 20000000 50000000 (by decide) (by decide) (by decide)
    (by decide)

/-! ### Bitwise toolkit -/

theorem nat_and_or_right (a b c : Nat) : (a ||| b) &&& c = (a &&& c) ||| (b &&& c) := by
  apply Nat.eq_of_testBit_eq
  intro i
  simp only [Nat.testBit_and, Nat.testBit_or]
  cases a.testBit i <;> cases b.testBit i <;> cases c.testBit i <;> rfl

theorem nat_and_assoc (a b c : Nat) : a &&& b &&& c = a &&& (b &&& c) := by
  apply Nat.eq_of_testBit_eq
  intro i
  simp only [Nat.testBit_and]
  cases a.testBit i <;> cases b.testBit i <;> cases c.testBit i <;> rfl

theorem nat_or_assoc (a b c : Nat) : a ||| b ||| c = a ||| (b ||| c) := by
  apply Nat.eq_of_testBit_eq
  intro i
  simp only [Nat.testBit_or]
  cases a.testBit i <;> cases b.testBit i <;> cases c.testBit i <;> rfl

theorem nat_mod_two_pow_eq_and (x n : Nat) : x % 2 ^ n = x &&& (2 ^ n - 1) := by
  apply Nat.eq_of_testBit_eq
  intro i
  simp only [Nat.testBit_mod_two_pow, Nat.testBit_and, Nat.testBit_two_pow_sub_one]
  cases x.testBit i <;> simp [Bool.and_comm]

/-! ### C3, C4, C9: configure failure paths -/

/-- All-zero starting state used by the concrete witnesses. -/
def testState : PwmState := ⟨fun _ _ => 0, fun _ => 0⟩

/-- C3: for every channel, calling `cadence_pwm_config` with a negative
`period_ns` (in particular `period_ns = -1`), when the channel clock enables
successfully, fails with `-EINVAL` (InvalidArgument) and writes no register:
every register retains its pre-call value. -/
theorem c3_negative_period_invalid (useExt : Bool) (pol : Polarity)
    (rate : Nat) (h : Nat) (duty_ns period_ns : Int) (s : PwmState)
    (hneg : period_ns < 0) :
    (cadence_pwm_config useExt pol rate true h duty_ns period_ns s).1 =
      CResult.invalidArgument ∧
    (cadence_pwm_config useExt pol rate true h duty_ns period_ns s).2.regs =
      s.regs := by
  simp [cadence_pwm_config, hneg, clkBump]

/-- Witness for C3 at `period_ns = -1` on channel 0. -/
theorem c3_negative_period_invalid_witness :
    (cadence_pwm_config false Polarity.normal 50000000 true 0 0 (-1) testState).1 =
      CResult.invalidArgument ∧
    (cadence_pwm_config false Polarity.normal 50000000 true 0 0 (-1) testState).2.regs =
      testState.regs :=
  c3_negative_period_invalid false Polarity.normal 50000000 0 0 (-1) testState
    (by decide)

/-- C4: if the channel clock fails to prepare/enable at the start of
`cadence_pwm_config`, the call fails with the clock error (ClockUnavailable)
and the entire state — every register and the clock counts — is unchanged:
the clock-enable check precedes any register mutation. -/
theorem c4_clock_fail_unchanged (useExt : Bool) (pol : Polarity)
    (rate : Nat) (h : Nat) (duty_ns period_ns : Int) (s : PwmState) :
    cadence_pwm_config useExt pol rate false h duty_ns period_ns s =
      (CResult.clockUnavailable, s) := rfl

/-- C9: when `cadence_pwm_config` is called with a negative `period_ns` and
the channel clock enables successfully, the call returns `-EINVAL` with the
channel clock left prepared and enabled (its enable count incremented), and
the registers untouched: the clock enable performed at entry is not rolled
back on the invalid-argument exit path. -/
theorem c9_einval_leaves_clock_enabled (useExt : Bool) (pol : Polarity)
    (rate : Nat) (h : Nat) (duty_ns period_ns : Int) (s : PwmState)
    (hneg : period_ns < 0) :
    (cadence_pwm_config useExt pol rate true h duty_ns period_ns s).1 =
      CResult.invalidArgument ∧
    (cadence_pwm_config useExt pol rate true h duty_ns period_ns s).2.regs =
      s.regs ∧
    (cadence_pwm_config useExt pol rate true h duty_ns period_ns s).2.clkCount h =
      s.clkCount h + 1 := by
  simp [cadence_pwm_config, hneg, clkBump]

/-- Witness for C9 at `period_ns = -1` on channel 1. -/
theorem c9_einval_leaves_clock_enabled_witness :
    (cadence_pwm_config true Polarity.inversed 100000000 true 1 5 (-1) testState).1 =
      CResult.invalidArgument ∧
    (cadence_pwm_config true Polarity.inversed 100000000 true 1 5 (-1) testState).2.regs =
      testState.regs ∧
    (cadence_pwm_config true Polarity.inversed 100000000 true 1 5 (-1) testState).2.clkCount 1 =
      testState.clkCount 1 + 1 :=
  c9_einval_leaves_clock_enabled true Polarity.inversed 100000000 1 5 (-1)
    testState (by decide)

/-! ### C8: disable idempotence -/

theorem testBit_mod32 (y i : Nat) :
    (y % 4294967296).testBit i = (decide (i < 32) && y.testBit i) := by
  have h32 : (4294967296 : Nat) = 2 ^ 32 := by norm_num
  rw [h32]
  exact Nat.testBit_mod_two_pow y 32 i

theorem or_mod_or_mod (x b : Nat) :
    (((x ||| b) % 2 ^ 32) ||| b) % 2 ^ 32 = (x ||| b) % 2 ^ 32 := by
  have h32 : (2 : Nat) ^ 32 = 4294967296 := by norm_num
  rw [h32]
  apply Nat.eq_of_testBit_eq
  intro i
  simp only [testBit_mod32, Nat.testBit_or]
  by_cases hi : i < 32
  · rw [decide_eq_true hi]
    cases x.testBit i <;> cases b.testBit i <;> rfl
  · rw [decide_eq_false hi]
    cases x.testBit i <;> cases b.testBit i <;> rfl

/-- C8: disable is idempotent on the registers — calling `cadence_pwm_disable`
twice in a row yields the same register file as calling it once.  A single
call stores `old ||| (COUNTING_DISABLE ||| WAVE_DISABLE)` (narrowed to 32
bits) into the channel's counter-control register, exactly setting those two
bits, and leaves every other (channel, register) location untouched. -/
theorem c8_disable_idempotent (h : Nat) (s : PwmState) :
    (cadence_pwm_disable h (cadence_pwm_disable h s)).regs =
      (cadence_pwm_disable h s).regs ∧
    (cadence_pwm_disable h s).regs h CPWM_COUNTER_CTRL =
      (s.regs h CPWM_COUNTER_CTRL |||
        (CPWM_COUNTER_CTRL_COUNTING_DISABLE |||
          CPWM_COUNTER_CTRL_WAVE_DISABLE)) % 2 ^ 32 ∧
    (∀ h' r', ¬(h' = h ∧ r' = CPWM_COUNTER_CTRL) →
      (cadence_pwm_disable h s).regs h' r' = s.regs h' r') := by
  refine ⟨?_, ?_, ?_⟩
  · funext h' r'
    by_cases hc : h' = h ∧ r' = CPWM_COUNTER_CTRL
    · obtain ⟨h1, h2⟩ := hc
      subst h1; subst h2
      simp only [cadence_pwm_disable, writeReg, and_self, if_true, if_pos]
      exact or_mod_or_mod _ _
    · simp only [cadence_pwm_disable, writeReg, if_neg hc]
  · simp [cadence_pwm_disable, writeReg]
  · intro h' r' hc
    simp only [cadence_pwm_disable, writeReg, if_neg hc]

/-- Witness for C8: idempotence on the all-zero state, and a location other
than the written one is untouched. -/
theorem c8_disable_idempotent_witness :
    (cadence_pwm_disable 0 (cadence_pwm_disable 0 testState)).regs =
      (cadence_pwm_disable 0 testState).regs ∧
    (cadence_pwm_disable 0 testState).regs 1 CPWM_COUNTER_CTRL =
      testState.regs 1 CPWM_COUNTER_CTRL :=
  ⟨(c8_disable_idempotent 0 testState).1,
   (c8_disable_idempotent 0 testState).2.2 1 CPWM_COUNTER_CTRL (by decide)⟩

/-! ### Read-back lemmas for the configure write sequence -/

theorem mask16_lt (x : Int) : mask16 x < 65536 := by
  unfold mask16
  have h1 : 0 ≤ x % 65536 := Int.emod_nonneg x (by norm_num)
  have h2 : x % 65536 < 65536 := Int.emod_lt_of_pos x (by norm_num)
  omega

theorem writeReg_hit (r : Regs) (h reg v : Nat) :
    writeReg r h reg v h reg = v % 2 ^ 32 := if_pos ⟨rfl, rfl⟩

theorem writeReg_miss (r : Regs) (h reg v h' reg' : Nat)
    (hne : ¬(h' = h ∧ reg' = reg)) :
    writeReg r h reg v h' reg' = r h' reg' := if_neg hne

theorem configure_regs_interval (useExt : Bool) (pol : Polarity)
    (rate h : Nat) (duty_ns period_ns : Int) (r : Regs) :
    configure_regs useExt pol rate h duty_ns period_ns r h CPWM_INTERVAL_COUNTER =
      mask16 (asr (clocks_of period_ns rate)
        (prescaler_of (clocks_of period_ns rate)).toNat) := by
  have hlt := mask16_lt (asr (clocks_of period_ns rate)
    (prescaler_of (clocks_of period_ns rate)).toNat)
  simp only [configure_regs]
  rw [writeReg_miss _ _ _ _ _ _ (fun p => absurd p.2 (by decide)),
    writeReg_miss _ _ _ _ _ _ (fun p => absurd p.2 (by decide)),
    writeReg_hit]
  exact Nat.mod_eq_of_lt (lt_trans hlt (by norm_num))

theorem configure_regs_match1 (useExt : Bool) (pol : Polarity)
    (rate h : Nat) (duty_ns period_ns : Int) (r : Regs) :
    configure_regs useExt pol rate h duty_ns period_ns r h CPWM_MATCH_1_COUNTER =
      mask16 (asr (clocks_of duty_ns rate)
        (prescaler_of (clocks_of period_ns rate)).toNat) := by
  have hlt := mask16_lt (asr (clocks_of duty_ns rate)
    (prescaler_of (clocks_of period_ns rate)).toNat)
  simp only [configure_regs]
  rw [writeReg_miss _ _ _ _ _ _ (fun p => absurd p.2 (by decide)),
    writeReg_hit]
  exact Nat.mod_eq_of_lt (lt_trans hlt (by norm_num))


theorem configure_regs_counter_ctrl (useExt : Bool) (pol : Polarity)
    (rate h : Nat) (duty_ns period_ns : Int) (r : Regs) :
    configure_regs useExt pol rate h duty_ns period_ns r h CPWM_COUNTER_CTRL =
      (if pol = Polarity.normal then
        ((r h CPWM_COUNTER_CTRL &&&
            complement32 CPWM_COUNTER_CTRL_DECREMENT_ENABLE) |||
          (CPWM_COUNTER_CTRL_INTERVAL_ENABLE ||| CPWM_COUNTER_CTRL_RESET |||
            CPWM_COUNTER_CTRL_MATCH_ENABLE)) ||| CPWM_COUNTER_CTRL_WAVE_POL
      else
        ((r h CPWM_COUNTER_CTRL &&&
            complement32 CPWM_COUNTER_CTRL_DECREMENT_ENABLE) |||
          (CPWM_COUNTER_CTRL_INTERVAL_ENABLE ||| CPWM_COUNTER_CTRL_RESET |||
            CPWM_COUNTER_CTRL_MATCH_ENABLE)) &&&
          complement32 CPWM_COUNTER_CTRL_WAVE_POL) % 2 ^ 32 := by
  simp only [configure_regs]
  rw [writeReg_hit]

theorem configure_regs_clk_ctrl (useExt : Bool) (pol : Polarity)
    (rate h : Nat) (duty_ns period_ns : Int) (r : Regs) :
    configure_regs useExt pol rate h duty_ns period_ns r h CPWM_CLK_CTRL =
      (if useExt then
        (if prescaler_of (clocks_of period_ns rate) = 0 then
          r h CPWM_CLK_CTRL &&&
            complement32 (CPWM_CLK_PRESCALE_ENABLE ||| CPWM_CLK_PRESCALE_MASK)
        else
          (r h CPWM_CLK_CTRL &&& complement32 CPWM_CLK_PRESCALE_MASK) |||
            (CPWM_CLK_PRESCALE_ENABLE |||
              (((prescaler_of (clocks_of period_ns rate) - 1).toNat <<<
                  CPWM_CLK_PRESCALE_SHIFT) &&& CPWM_CLK_PRESCALE_MASK))) |||
          CPWM_CLK_SRC_EXTERNAL
      else
        (if prescaler_of (clocks_of period_ns rate) = 0 then
          r h CPWM_CLK_CTRL &&&
            complement32 (CPWM_CLK_PRESCALE_ENABLE ||| CPWM_CLK_PRESCALE_MASK)
        else
          (r h CPWM_CLK_CTRL &&& complement32 CPWM_CLK_PRESCALE_MASK) |||
            (CPWM_CLK_PRESCALE_ENABLE |||
              (((prescaler_of (clocks_of period_ns rate) - 1).toNat <<<
                  CPWM_CLK_PRESCALE_SHIFT) &&& CPWM_CLK_PRESCALE_MASK))) &&&
          complement32 CPWM_CLK_SRC_EXTERNAL) % 2 ^ 32 := by
  simp only [configure_regs]
  rw [writeReg_miss _ _ _ _ _ _ (fun p => absurd p.2 (by decide)),
    writeReg_miss _ _ _ _ _ _ (fun p => absurd p.2 (by decide)),
    writeReg_miss _ _ _ _ _ _ (fun p => absurd p.2 (by decide)),
    writeReg_hit,
    writeReg_miss _ _ _ _ _ _ (fun p => absurd p.2 (by decide))]


theorem preserved_ctrl_bit (orig b : Nat) (pol : Polarity)
    (h1 : complement32 CPWM_COUNTER_CTRL_DECREMENT_ENABLE &&& b = b)
    (h2 : (CPWM_COUNTER_CTRL_INTERVAL_ENABLE ||| CPWM_COUNTER_CTRL_RESET |||
      CPWM_COUNTER_CTRL_MATCH_ENABLE) &&& b = 0)
    (h3 : CPWM_COUNTER_CTRL_WAVE_POL &&& b = 0)
    (h4 : complement32 CPWM_COUNTER_CTRL_WAVE_POL &&& b = b)
    (h5 : ((2 : Nat) ^ 32 - 1) &&& b = b) :
    ((if pol = Polarity.normal then
        ((orig &&& complement32 CPWM_COUNTER_CTRL_DECREMENT_ENABLE) |||
          (CPWM_COUNTER_CTRL_INTERVAL_ENABLE ||| CPWM_COUNTER_CTRL_RESET |||
            CPWM_COUNTER_CTRL_MATCH_ENABLE)) ||| CPWM_COUNTER_CTRL_WAVE_POL
      else
        ((orig &&& complement32 CPWM_COUNTER_CTRL_DECREMENT_ENABLE) |||
          (CPWM_COUNTER_CTRL_INTERVAL_ENABLE ||| CPWM_COUNTER_CTRL_RESET |||
            CPWM_COUNTER_CTRL_MATCH_ENABLE)) &&&
          complement32 CPWM_COUNTER_CTRL_WAVE_POL) % 2 ^ 32) &&& b =
      orig &&& b := by
  rw [nat_mod_two_pow_eq_and, nat_and_assoc, h5]
  cases pol with
  | normal =>
    rw [if_pos rfl, nat_and_or_right, h3, Nat.or_zero, nat_and_or_right, h2,
      Nat.or_zero, nat_and_assoc, h1]
  | inversed =>
    rw [if_neg (by decide), nat_and_assoc, h4, nat_and_or_right, h2,
      Nat.or_zero, nat_and_assoc, h1]

/-! ### C5: non-destructive reconfigure -/

theorem config_ok_state (useExt : Bool) (pol : Polarity) (rate h : Nat)
    (duty_ns period_ns : Int) (s : PwmState) (hper : 0 ≤ period_ns) :
    cadence_pwm_config useExt pol rate true h duty_ns period_ns s =
      (CResult.ok,
        { regs := configure_regs useExt pol rate h duty_ns period_ns s.regs
          clkCount := fun h' => if h' = h then s.clkCount h' + 1
            else s.clkCount h' }) := by
  simp [cadence_pwm_config, clkBump, not_lt.mpr hper]

theorem config_ok_fst (useExt : Bool) (pol : Polarity) (rate h : Nat)
    (duty_ns period_ns : Int) (s : PwmState) (hper : 0 ≤ period_ns) :
    (cadence_pwm_config useExt pol rate true h duty_ns period_ns s).1 =
      CResult.ok := by
  rw [config_ok_state useExt pol rate h duty_ns period_ns s hper]

theorem config_ok_regs (useExt : Bool) (pol : Polarity) (rate h : Nat)
    (duty_ns period_ns : Int) (s : PwmState) (hper : 0 ≤ period_ns) :
    (cadence_pwm_config useExt pol rate true h duty_ns period_ns s).2.regs =
      configure_regs useExt pol rate h duty_ns period_ns s.regs := by
  rw [config_ok_state useExt pol rate h duty_ns period_ns s hper]

/-- C5: a successful `cadence_pwm_config` on a channel that is enabled
beforehand (counting-disabled and waveform-disable bits clear) leaves those
two bits of the counter-control register with the same (clear) values
afterward, while the interval and match-1 registers hold the newly computed
values. -/
theorem c5_reconfigure_preserves_enabled (useExt : Bool) (pol : Polarity)
    (rate h : Nat) (duty_ns period_ns : Int) (s : PwmState)
    (hper : 0 ≤ period_ns)
    (hcd : s.regs h CPWM_COUNTER_CTRL &&& CPWM_COUNTER_CTRL_COUNTING_DISABLE = 0)
    (hwd : s.regs h CPWM_COUNTER_CTRL &&& CPWM_COUNTER_CTRL_WAVE_DISABLE = 0) :
    (cadence_pwm_config useExt pol rate true h duty_ns period_ns s).1 =
      CResult.ok ∧
    (cadence_pwm_config useExt pol rate true h duty_ns period_ns s).2.regs h
        CPWM_COUNTER_CTRL &&& CPWM_COUNTER_CTRL_COUNTING_DISABLE =
      s.regs h CPWM_COUNTER_CTRL &&& CPWM_COUNTER_CTRL_COUNTING_DISABLE ∧
    (cadence_pwm_config useExt pol rate true h duty_ns period_ns s).2.regs h
        CPWM_COUNTER_CTRL &&& CPWM_COUNTER_CTRL_WAVE_DISABLE =
      s.regs h CPWM_COUNTER_CTRL &&& CPWM_COUNTER_CTRL_WAVE_DISABLE ∧
    (cadence_pwm_config useExt pol rate true h duty_ns period_ns s).2.regs h
        CPWM_INTERVAL_COUNTER =
      mask16 (asr (clocks_of period_ns rate)
        (prescaler_of (clocks_of period_ns rate)).toNat) ∧
    (cadence_pwm_config useExt pol rate true h duty_ns period_ns s).2.regs h
        CPWM_MATCH_1_COUNTER =
      mask16 (asr (clocks_of duty_ns rate)
        (prescaler_of (clocks_of period_ns rate)).toNat) := by
  rw [config_ok_regs useExt pol rate h duty_ns period_ns s hper]
  refine ⟨config_ok_fst useExt pol rate h duty_ns period_ns s hper, ?_, ?_, ?_, ?_⟩
  · rw [configure_regs_counter_ctrl]
    exact preserved_ctrl_bit _ _ pol (by decide) (by decide) (by decide)
      (by decide) (by decide)
  · rw [configure_regs_counter_ctrl]
    exact preserved_ctrl_bit _ _ pol (by decide) (by decide) (by decide)
      (by decide) (by decide)
  · exact configure_regs_interval useExt pol rate h duty_ns period_ns s.regs
  · exact configure_regs_match1 useExt pol rate h duty_ns period_ns s.regs

/-- Witness for C5: reconfiguring an enabled channel (all-zero registers)
with the servo scenario inputs. -/
theorem c5_reconfigure_preserves_enabled_witness :
    (cadence_pwm_config false Polarity.normal 50000000 true 0 1500000 20000000
        testState).1 = CResult.ok ∧
    (cadence_pwm_config false Polarity.normal 50000000 true 0 1500000 20000000
        testState).2.regs 0 CPWM_COUNTER_CTRL &&&
        CPWM_COUNTER_CTRL_COUNTING_DISABLE =
      testState.regs 0 CPWM_COUNTER_CTRL &&& CPWM_COUNTER_CTRL_COUNTING_DISABLE ∧
    (cadence_pwm_config false Polarity.normal 50000000 true 0 1500000 20000000
        testState).2.regs 0 CPWM_COUNTER_CTRL &&&
        CPWM_COUNTER_CTRL_WAVE_DISABLE =
      testState.regs 0 CPWM_COUNTER_CTRL &&& CPWM_COUNTER_CTRL_WAVE_DISABLE ∧
    (cadence_pwm_config false Polarity.normal 50000000 true 0 1500000 20000000
        testState).2.regs 0 CPWM_INTERVAL_COUNTER =
      mask16 (asr (clocks_of 20000000 50000000)
        (prescaler_of (clocks_of 20000000 50000000)).toNat) ∧
    (cadence_pwm_config false Polarity.normal 50000000 true 0 1500000 20000000
        testState).2.regs 0 CPWM_MATCH_1_COUNTER =
      mask16 (asr (clocks_of 1500000 50000000)
        (prescaler_of (clocks_of 20000000 50000000)).toNat) :=
  c5_reconfigure_preserves_enabled false Polarity.normal 50000000 0 1500000
    20000000 testState (by decide) (by decide) (by decide)

/-! ### C6: servo scenario -/

/-- C6: for clock_rate_hz = 50 MHz, period_ns = 20 ms, duty_ns = 1.5 ms
(the servo scenario), `cadence_pwm_config` computes
`period_clocks = 1000000`, `duty_clocks = 75000`, prescaler exponent 4
(hardware prescale code 3 with the prescale-enable bit set), and writes
exactly 62500 to the interval register and 4687 to the match-1 register. -/
theorem c6_servo_scenario (useExt : Bool) (pol : Polarity) (h : Nat)
    (s : PwmState) :
    clocks_of 20000000 50000000 = 1000000 ∧
    clocks_of 1500000 50000000 = 75000 ∧
    prescaler_of (clocks_of 20000000 50000000) = 4 ∧
    (cadence_pwm_config useExt pol 50000000 true h 1500000 20000000 s).1 =
      CResult.ok ∧
    (cadence_pwm_config useExt pol 50000000 true h 1500000 20000000 s).2.regs h
      CPWM_INTERVAL_COUNTER = 62500 ∧
    (cadence_pwm_config useExt pol 50000000 true h 1500000 20000000 s).2.regs h
      CPWM_MATCH_1_COUNTER = 4687 ∧
    ((cadence_pwm_config useExt pol 50000000 true h 1500000 20000000 s).2.regs h
        CPWM_CLK_CTRL &&& CPWM_CLK_PRESCALE_MASK) >>> CPWM_CLK_PRESCALE_SHIFT =
      3 ∧
    (cadence_pwm_config useExt pol 50000000 true h 1500000 20000000 s).2.regs h
        CPWM_CLK_CTRL &&& CPWM_CLK_PRESCALE_ENABLE = CPWM_CLK_PRESCALE_ENABLE := by
  have hper : (0 : Int) ≤ 20000000 := by decide
  have hM : ((2 : Nat) ^ 32 - 1) &&& CPWM_CLK_PRESCALE_MASK =
    CPWM_CLK_PRESCALE_MASK := by decide
  have hM1 : ((2 : Nat) ^ 32 - 1) &&& CPWM_CLK_PRESCALE_ENABLE =
    CPWM_CLK_PRESCALE_ENABLE := by decide
  have hExtM : CPWM_CLK_SRC_EXTERNAL &&& CPWM_CLK_PRESCALE_MASK = 0 := by decide
  have hExtM1 : CPWM_CLK_SRC_EXTERNAL &&& CPWM_CLK_PRESCALE_ENABLE = 0 := by
    decide
  have hcExtM : complement32 CPWM_CLK_SRC_EXTERNAL &&& CPWM_CLK_PRESCALE_MASK =
    CPWM_CLK_PRESCALE_MASK := by decide
  have hcExtM1 : complement32 CPWM_CLK_SRC_EXTERNAL &&&
    CPWM_CLK_PRESCALE_ENABLE = CPWM_CLK_PRESCALE_ENABLE := by decide
  have hE : (CPWM_CLK_PRESCALE_ENABLE |||
      (((prescaler_of (clocks_of 20000000 50000000) - 1).toNat <<<
        CPWM_CLK_PRESCALE_SHIFT) &&& CPWM_CLK_PRESCALE_MASK)) &&&
      CPWM_CLK_PRESCALE_MASK = 6 := by decide
  have hE1 : (CPWM_CLK_PRESCALE_ENABLE |||
      (((prescaler_of (clocks_of 20000000 50000000) - 1).toNat <<<
        CPWM_CLK_PRESCALE_SHIFT) &&& CPWM_CLK_PRESCALE_MASK)) &&&
      CPWM_CLK_PRESCALE_ENABLE = 1 := by decide
  have hcM : complement32 CPWM_CLK_PRESCALE_MASK &&& CPWM_CLK_PRESCALE_MASK =
    0 := by decide
  have hcM1 : complement32 CPWM_CLK_PRESCALE_MASK &&&
    CPWM_CLK_PRESCALE_ENABLE = CPWM_CLK_PRESCALE_ENABLE := by decide
  refine ⟨by decide, by decide, by decide,
    config_ok_fst useExt pol 50000000 h 1500000 20000000 s hper, ?_, ?_, ?_, ?_⟩
  · rw [config_ok_regs useExt pol 50000000 h 1500000 20000000 s hper,
      configure_regs_interval]
    decide
  · rw [config_ok_regs useExt pol 50000000 h 1500000 20000000 s hper,
      configure_regs_match1]
    decide
  · rw [config_ok_regs useExt pol 50000000 h 1500000 20000000 s hper,
      configure_regs_clk_ctrl]
    cases useExt
    · rw [if_neg (show ¬((false : Bool) = true) by decide),
        if_neg (show ¬(prescaler_of (clocks_of 20000000 50000000) = 0) by decide),
        nat_mod_two_pow_eq_and, nat_and_assoc, hM,
        nat_and_assoc, hcExtM, nat_and_or_right, hE, nat_and_assoc, hcM,
        Nat.and_zero, Nat.zero_or]
      decide
    · rw [if_pos (show (true : Bool) = true from rfl),
        if_neg (show ¬(prescaler_of (clocks_of 20000000 50000000) = 0) by decide),
        nat_mod_two_pow_eq_and, nat_and_assoc, hM,
        nat_and_or_right, hExtM, Nat.or_zero, nat_and_or_right, hE,
        nat_and_assoc, hcM, Nat.and_zero, Nat.zero_or]
      decide
  · rw [config_ok_regs useExt pol 50000000 h 1500000 20000000 s hper,
      configure_regs_clk_ctrl]
    cases useExt
    · rw [if_neg (show ¬((false : Bool) = true) by decide),
        if_neg (show ¬(prescaler_of (clocks_of 20000000 50000000) = 0) by decide),
        nat_mod_two_pow_eq_and, nat_and_assoc, hM1,
        nat_and_assoc, hcExtM1, nat_and_or_right, hE1, nat_and_assoc, hcM1]
      have hle : s.regs h CPWM_CLK_CTRL &&& CPWM_CLK_PRESCALE_ENABLE ≤ 1 :=
        Nat.and_le_right
      interval_cases hv : s.regs h CPWM_CLK_CTRL &&& CPWM_CLK_PRESCALE_ENABLE <;>
        decide
    · rw [if_pos (show (true : Bool) = true from rfl),
        if_neg (show ¬(prescaler_of (clocks_of 20000000 50000000) = 0) by decide),
        nat_mod_two_pow_eq_and, nat_and_assoc, hM1,
        nat_and_or_right, hExtM1, Nat.or_zero, nat_and_or_right, hE1,
        nat_and_assoc, hcM1]
      have hle : s.regs h CPWM_CLK_CTRL &&& CPWM_CLK_PRESCALE_ENABLE ≤ 1 :=
        Nat.and_le_right
      interval_cases hv : s.regs h CPWM_CLK_CTRL &&& CPWM_CLK_PRESCALE_ENABLE <;>
        decide

/-! ### C7: zero-prescaler round trip -/

theorem prescaler_of_small (q : Nat) (hq : q ≤ 65535) :
    prescaler_of (q : Int) = 0 := by
  by_cases h0 : q = 0
  · subst h0; decide
  · have h32 : q < 2 ^ 32 := by omega
    have hmod : ((q : Int) % (2 : Int) ^ 32).toNat = q := by
      rw [Int.emod_eq_of_lt (by positivity) (by exact_mod_cast h32)]
      exact Int.toNat_natCast q
    have hfls : fls32 q = Nat.log2 q + 1 := by
      rw [fls32_spec q h32]
      exact if_neg h0
    have hlog : Nat.log2 q < 16 := (Nat.log2_lt h0).mpr (by omega)
    simp only [prescaler_of, ilog2_u32, hmod, hfls]
    split <;> omega

theorem toInt32_small (q : Nat) (hq : q < 2 ^ 31) : toInt32 q = (q : Int) := by
  unfold toInt32
  rw [Nat.mod_eq_of_lt (by omega)]
  exact if_pos (by exact_mod_cast hq)

theorem mask16_small (q : Nat) (hq : q < 65536) : mask16 (q : Int) = q := by
  unfold mask16
  rw [Int.emod_eq_of_lt (by positivity) (by exact_mod_cast hq)]
  exact Int.toNat_natCast q

/-- C7: whenever the computed `period_clocks` fits the 16-bit counter
(`period_clocks ≤ 65535`), `cadence_pwm_config` selects prescaler exponent 0,
clears the prescale-enable and prescale-value bits of the clock-control
register, and the value written to the interval register equals
`period_clocks` exactly. -/
theorem c7_zero_prescaler_roundtrip (useExt : Bool) (pol : Polarity)
    (rate h : Nat) (duty_ns period_ns : Int) (s : PwmState)
    (h0 : 0 ≤ period_ns) (h31 : period_ns < 2 ^ 31) (hr32 : rate < 2 ^ 32)
    (hsmall : period_ns.toNat * rate / 1000000000 ≤ 65535) :
    prescaler_of (clocks_of period_ns rate) = 0 ∧
    clocks_of period_ns rate =
      ((period_ns.toNat * rate / 1000000000 : Nat) : Int) ∧
    (cadence_pwm_config useExt pol rate true h duty_ns period_ns s).2.regs h
        CPWM_INTERVAL_COUNTER = period_ns.toNat * rate / 1000000000 ∧
    (cadence_pwm_config useExt pol rate true h duty_ns period_ns s).2.regs h
        CPWM_CLK_CTRL &&&
      (CPWM_CLK_PRESCALE_ENABLE ||| CPWM_CLK_PRESCALE_MASK) = 0 := by
  have hclk : clocks_of period_ns rate =
      ((period_ns.toNat * rate / 1000000000 : Nat) : Int) := by
    rw [(clocks_of_exact period_ns rate h0 h31 hr32).2.2.2]
    exact toInt32_small _ (by omega)
  have hpres : prescaler_of (clocks_of period_ns rate) = 0 := by
    rw [hclk]
    exact prescaler_of_small _ hsmall
  refine ⟨hpres, hclk, ?_, ?_⟩
  · rw [config_ok_regs useExt pol rate h duty_ns period_ns s h0,
      configure_regs_interval, hpres, hclk]
    show mask16 (asr _ (Int.toNat 0)) = _
    rw [show Int.toNat 0 = 0 from rfl]
    unfold asr
    rw [pow_zero, Int.fdiv_one]
    exact mask16_small _ (by omega)
  · rw [config_ok_regs useExt pol rate h duty_ns period_ns s h0,
      configure_regs_clk_ctrl]
    have hB : ((2 : Nat) ^ 32 - 1) &&&
        (CPWM_CLK_PRESCALE_ENABLE ||| CPWM_CLK_PRESCALE_MASK) =
      (CPWM_CLK_PRESCALE_ENABLE ||| CPWM_CLK_PRESCALE_MASK) := by decide
    have hcB : complement32 (CPWM_CLK_PRESCALE_ENABLE ||| CPWM_CLK_PRESCALE_MASK) &&&
        (CPWM_CLK_PRESCALE_ENABLE ||| CPWM_CLK_PRESCALE_MASK) = 0 := by decide
    have hExtB : CPWM_CLK_SRC_EXTERNAL &&&
        (CPWM_CLK_PRESCALE_ENABLE ||| CPWM_CLK_PRESCALE_MASK) = 0 := by decide
    have hcExtB : complement32 CPWM_CLK_SRC_EXTERNAL &&&
        (CPWM_CLK_PRESCALE_ENABLE ||| CPWM_CLK_PRESCALE_MASK) =
      (CPWM_CLK_PRESCALE_ENABLE ||| CPWM_CLK_PRESCALE_MASK) := by decide
    cases useExt
    · rw [if_neg (show ¬((false : Bool) = true) by decide), if_pos hpres,
        nat_mod_two_pow_eq_and, nat_and_assoc, hB, nat_and_assoc, hcExtB,
        nat_and_assoc, hcB, Nat.and_zero]
    · rw [if_pos (show (true : Bool) = true from rfl), if_pos hpres,
        nat_mod_two_pow_eq_and, nat_and_assoc, hB, nat_and_or_right, hExtB,
        Nat.or_zero, nat_and_assoc, hcB, Nat.and_zero]

/-- Witness for C7 at `period_ns = 1000`, `rate = 50000000`
(`period_clocks = 50`). -/
theorem c7_zero_prescaler_roundtrip_witness :
    prescaler_of (clocks_of 1000 50000000) = 0 ∧
    clocks_of 1000 50000000 =
      (((1000 : Int).toNat * 50000000 / 1000000000 : Nat) : Int) ∧
    (cadence_pwm_config false Polarity.normal 50000000 true 0 0 1000
        testState).2.regs 0 CPWM_INTERVAL_COUNTER =
      (1000 : Int).toNat * 50000000 / 1000000000 ∧
    (cadence_pwm_config false Polarity.normal 50000000 true 0 0 1000
        testState).2.regs 0 CPWM_CLK_CTRL &&&
      (CPWM_CLK_PRESCALE_ENABLE ||| CPWM_CLK_PRESCALE_MASK) = 0 :=
  c7_zero_prescaler_roundtrip false Polarity.normal 50000000 0 0 1000 testState
    (by decide) (by decide) (by decide) (by decide)

/-! ### C10: no duty validation -/

/-- C10: configure performs no validation of `duty_ns` against
`period_ns`: for every `duty_ns` whatsoever, whenever `period_ns ≥ 0` and the
clock enables, the call succeeds and stores
`(duty_clocks >> prescaler) & 0xffff` in the match-1 register; and the call
fails exactly when the clock fails to enable or `period_ns` is negative. -/
theorem c10_no_duty_validation (useExt : Bool) (pol : Polarity)
    (rate h : Nat) (duty_ns period_ns : Int) (clkOk : Bool) (s : PwmState) :
    (0 ≤ period_ns →
      (cadence_pwm_config useExt pol rate true h duty_ns period_ns s).1 =
        CResult.ok ∧
      (cadence_pwm_config useExt pol rate true h duty_ns period_ns s).2.regs h
          CPWM_MATCH_1_COUNTER =
        mask16 (asr (clocks_of duty_ns rate)
          (prescaler_of (clocks_of period_ns rate)).toNat)) ∧
    ((cadence_pwm_config useExt pol rate clkOk h duty_ns period_ns s).1 ≠
        CResult.ok ↔ (clkOk = false ∨ period_ns < 0)) := by
  constructor
  · intro hper
    refine ⟨config_ok_fst useExt pol rate h duty_ns period_ns s hper, ?_⟩
    rw [config_ok_regs useExt pol rate h duty_ns period_ns s hper,
      configure_regs_match1]
  · cases clkOk
    · simp [cadence_pwm_config]
    · by_cases hneg : period_ns < 0
      · simp [cadence_pwm_config, hneg]
      · have hok := config_ok_fst useExt pol rate h duty_ns period_ns s
          (by omega)
        rw [hok]
        simp [hneg]

/-- Witness for C10: duty_ns = 20160000 > period_ns = 20000000 still
succeeds, and the value stored in match-1 (63000) exceeds the interval value
(62500). -/
theorem c10_no_duty_validation_witness :
    ((cadence_pwm_config false Polarity.normal 50000000 true 0 20160000
        20000000 testState).1 = CResult.ok ∧
    (cadence_pwm_config false Polarity.normal 50000000 true 0 20160000
        20000000 testState).2.regs 0 CPWM_MATCH_1_COUNTER =
      mask16 (asr (clocks_of 20160000 50000000)
        (prescaler_of (clocks_of 20000000 50000000)).toNat)) ∧
    mask16 (asr (clocks_of 20160000 50000000)
      (prescaler_of (clocks_of 20000000 50000000)).toNat) = 63000 ∧
    mask16 (asr (clocks_of 20000000 50000000)
      (prescaler_of (clocks_of 20000000 50000000)).toNat) = 62500 :=
  ⟨(c10_no_duty_validation false Polarity.normal 50000000 0 20160000 20000000
      true testState).1 (by decide), by decide, by decide⟩

end CadencePWM
